import Mathlib

/-!
Verification development for the stat-discovery and sampling layer of
`amdgpu_stats` (file `src/amdgpu_stats/utils.py`), shallowly embedded in Lean.

Modelling conventions:
* a Python `str` is a `List Char` (`Str`);
* a Python `dict` is an insertion-ordered association list with unique keys
  (`dictInsert` updates in place, new keys are appended — Python 3.7+ dict
  semantics);
* the filesystem is an explicit `Fs` structure: the two `glob.glob`
  enumerations that the code performs and a partial contents map
  (`none` models a file whose `open`/read raises `IOError`);
* a raised Python exception is the error component of `Except PyErr`;
* the module-level global `AMDGPU_CARDS = find_cards()` is passed to each
  sampler as an explicit `cards` argument.
-/

namespace AmdgpuStats

abbrev Str := List Char

/-- The ASCII whitespace characters stripped by Python's `str.strip()`
(Python also strips some non-ASCII unicode whitespace; the sysfs files at
issue are ASCII). -/
def isPySpace (c : Char) : Bool :=
  c == ' ' || c == '\t' || c == '\n' || c == '\x0d' || c == '\x0b' || c == '\x0c'

/-- Python `s.strip()`: remove leading and trailing whitespace. -/
def pyStrip (s : Str) : Str :=
  ((s.dropWhile isPySpace).reverse.dropWhile isPySpace).reverse

/-- Python `s.split(sep)` for a one-character separator: split at every
occurrence, keeping empty pieces. -/
def splitChar (sep : Char) : Str → List Str
  | [] => [[]]
  | c :: rest =>
    if c = sep then [] :: splitChar sep rest
    else
      match splitChar sep rest with
      | [] => [[c]]
      | g :: gs => (c :: g) :: gs

/-- `os.path.dirname` (posixpath): the prefix up to the last `'/'`, with
trailing slashes then stripped unless that prefix is all slashes. -/
def dirname (p : Str) : Str :=
  let head := (p.reverse.dropWhile (· != '/')).reverse
  if head ≠ [] ∧ ¬ (head.all (· == '/')) then
    (head.reverse.dropWhile (· == '/')).reverse
  else head

/-- `os.path.basename` (posixpath): the suffix after the last `'/'`. -/
def basename (p : Str) : Str :=
  (p.reverse.takeWhile (· != '/')).reverse

/-- Two-argument `os.path.join` (posixpath): `b` if it is absolute, else `a`
and `b` joined with exactly one `'/'`. -/
def pjoin (a b : Str) : Str :=
  if b.head? = some '/' then b
  else if a = [] ∨ a.getLast? = some '/' then a ++ b
  else a ++ '/' :: b

/-- Accumulator for decimal digit parsing. -/
def natOfDigitsAux (acc : Nat) : Str → Option Nat
  | [] => some acc
  | c :: rest =>
    if c.isDigit then natOfDigitsAux (acc * 10 + (c.toNat - 48)) rest else none

/-- Python `int(s)` on a string: strip whitespace, optional single sign, then
a nonempty run of decimal digits; `none` models the `ValueError` raised on
anything else. (Python additionally accepts underscore digit separators and
non-ASCII decimal digits; no sysfs file and no claim exercises those.) -/
def pyInt (s : Str) : Option Int :=
  match pyStrip s with
  | '-' :: rest =>
    if rest = [] then none else (natOfDigitsAux 0 rest).map (fun n => -(n : Int))
  | '+' :: rest =>
    if rest = [] then none else (natOfDigitsAux 0 rest).map (fun n => (n : Int))
  | t => if t = [] then none else (natOfDigitsAux 0 t).map (fun n => (n : Int))

/-- Python `repr` of a simple string (single quotes; quote/escape handling for
exotic contents is not exercised by the messages at issue). -/
def pyStrRepr (s : Str) : Str := '\'' :: (s ++ ['\''])

/-- Python `repr` of a list of strings, as produced by
`f"... {list(AMDGPU_CARDS.keys())}"`. -/
def pyStrListRepr (l : List Str) : Str :=
  '[' :: (List.intercalate ", ".data (l.map pyStrRepr)) ++ [']']

/-- Python exceptions that the embedded code can raise. -/
inductive PyErr
  | ioError (path : Str)
  | valueError (msg : Str)
  | indexError
deriving Repr, DecidableEq

/-- A Python value appearing in the samplers' results: a string or an int. -/
inductive PyVal
  | pstr (s : Str)
  | pint (n : Int)
deriving Repr, DecidableEq

instance [DecidableEq ε] [DecidableEq α] : DecidableEq (Except ε α) := fun x y =>
  match x, y with
  | .ok a, .ok b =>
    if h : a = b then .isTrue (by rw [h]) else .isFalse (by intro hh; cases hh; exact h rfl)
  | .error e, .error f =>
    if h : e = f then .isTrue (by rw [h]) else .isFalse (by intro hh; cases hh; exact h rfl)
  | .ok _, .error _ => .isFalse (by intro hh; cases hh)
  | .error _, .ok _ => .isFalse (by intro hh; cases hh)

/-- Insertion-ordered dict write `d[k] = v`: an existing key keeps its
position and gets the new value, a new key is appended (Python 3.7+ dict
semantics; every dict in the embedded code grows from `[]` through this
function, so keys are always unique). -/
def dictInsert : List (Str × α) → Str → α → List (Str × α)
  | [], k, v => [(k, v)]
  | p :: rest, k, v => if p.1 = k then (k, v) :: rest else p :: dictInsert rest k v

/-- Dict read `d[k]` / key membership probe: first entry with key `k`. -/
def dlookup (d : List (Str × α)) (k : Str) : Option α :=
  match d with
  | [] => none
  | p :: rest => if p.1 = k then some p.2 else dlookup rest k

/-- Bool form of Python's `k in d`. -/
def hasKey (d : List (Str × α)) (k : Str) : Bool :=
  match d with
  | [] => false
  | p :: rest => if p.1 = k then true else hasKey rest k

/-- The filesystem as the code observes it: the two glob enumerations it
performs, and the contents of each readable file (`none`: reading raises). -/
structure Fs where
  /-- `glob.glob('/sys/class/drm/card*/device/hwmon/hwmon*/name')`, in
  filesystem-defined enumeration order. -/
  hwmonNameGlob : List Str
  /-- `glob.glob(path.join(hwmon_dir, "temp*_label"))` for each directory. -/
  tempLabelGlob : Str → List Str
  /-- Contents of each file; `none` where `open`/read raises `IOError`. -/
  contents : Str → Option Str

/-- Registry type returned by `find_cards`: card id → hwmon directory. -/
abbrev Registry := List (Str × Str)

/-- Loop body of `find_cards`: read one enumerated `name` file; on the vendor
match `'amdgpu'` record `card → hwmon_dir` (card id is path component 4,
guaranteed to exist for any glob result; a shorter path would raise
`IndexError`). -/
def find_cards_step (fs : Fs) (cards : Registry) (f : Str) : Except PyErr Registry :=
  match fs.contents f with
  | none => .error (.ioError f)
  | some raw =>
    if pyStrip raw = "amdgpu".data then
      match (splitChar '/' f)[4]? with
      | none => .error .indexError
      | some card => .ok (dictInsert cards card (dirname f))
    else .ok cards

/-- The `for hwmon_name_file in hwmon_names:` loop of `find_cards`. -/
def find_cards_loop (fs : Fs) : List Str → Registry → Except PyErr Registry
  | [], cards => .ok cards
  | f :: rest, cards =>
    match find_cards_step fs cards f with
    | .ok cards' => find_cards_loop fs rest cards'
    | .error e => .error e

/-- `find_cards()`: scan every enumerated hwmon `name` file, collecting
`cardN → hwmon directory` for those whose stripped contents equal
`'amdgpu'`. -/
def find_cards (fs : Fs) : Except PyErr Registry :=
  find_cards_loop fs fs.hwmonNameGlob []

/-- `int(int(data) / 1000000)`: Python evaluates the division on binary
doubles and truncates toward zero; modelled as the exact quotient truncated
toward zero, which coincides with the double computation for every magnitude
a microwatt power file can hold (exact up to about `2^52`). -/
def microwattToWatt (n : Int) : Int := Int.tdiv n 1000000

/-- `read_stat(file, stat_type)`: read and strip a statistic file; when
`stat_type == 'power'` (and only then) parse as an integer and convert
microwatts to watts. -/
def read_stat (fs : Fs) (file : Str) (stat_type : Option Str) : Except PyErr PyVal :=
  match fs.contents file with
  | none => .error (.ioError file)
  | some raw =>
    let data := pyStrip raw
    if stat_type = some "power".data then
      match pyInt data with
      | none => .error (.valueError ("invalid literal for int() with base 10: ".data ++ pyStrRepr data))
      | some n => .ok (.pint (microwattToWatt n))
    else .ok (.pstr data)

/-- Digit characters of `n` in base 10, most significant first: the rendering
of a nonnegative Python int. Structural in a fuel argument (any fuel above
the digit count) so that the kernel can evaluate it. -/
def natCharsAux : Nat → Nat → Str
  | 0, _ => []
  | fuel + 1, n =>
    if n < 10 then [Nat.digitChar n] else natCharsAux fuel (n / 10) ++ [Nat.digitChar (n % 10)]

/-- Decimal rendering of a nonnegative integer. -/
def natChars (n : Nat) : Str := natCharsAux (n + 1) n

/-- Python `str`/`'%s'` rendering of an int. -/
def intChars (i : Int) : Str :=
  if i < 0 then '-' :: natChars i.natAbs else natChars i.toNat

/-- Round-half-to-even of the exact rational `a / b` (`b > 0`): the rounding
Python's float formatting applies. -/
def rndHalfEven (a b : Int) : Int :=
  let q := Int.fdiv a b
  let r := a - q * b
  if 2 * r < b then q
  else if b < 2 * r then q + 1
  else if q % 2 = 0 then q else q + 1

/-- `re.sub('0+$', '', text)`: strip trailing `'0'` characters. -/
def stripTrailingZeros (t : Str) : Str := (t.reverse.dropWhile (· == '0')).reverse

/-- `re.sub(r'\.$', '', text)`: strip one trailing `'.'` if present. -/
def stripTrailingDot (t : Str) : Str :=
  if t.getLast? = some '.' then t.dropLast else t

/-- `humanfriendly.round_number(count)` for `count` the exact rational
`a / b` (`b > 0`): render `'%.2f' % count`, then strip trailing zeros and any
then-trailing dot. Python evaluates `count` as a binary double before the
decimal rounding; the exact-rational model agrees except on half-ulp ties,
which no claim observes. -/
def round_number (a b : Int) : Str :=
  let c := rndHalfEven (100 * a) b
  let sign : Str := if c < 0 then ['-'] else []
  let m := c.natAbs
  stripTrailingDot (stripTrailingZeros
    (sign ++ natChars (m / 100)
      ++ '.' :: [Nat.digitChar (m / 10 % 10), Nat.digitChar (m % 10)]))

/-- The decimal dividers and symbols of `humanfriendly.disk_size_units`,
largest first, as scanned by `format_size(..., binary=False)`. -/
def disk_size_units_desc : List (Int × Str) :=
  [(1000 ^ 8, "YB".data), (1000 ^ 7, "ZB".data), (1000 ^ 6, "EB".data),
   (1000 ^ 5, "PB".data), (1000 ^ 4, "TB".data), (1000 ^ 3, "GB".data),
   (1000 ^ 2, "MB".data), (1000 ^ 1, "KB".data)]

/-- The unit scan of `humanfriendly.format_size`: the first (largest) unit
whose divider is at or below `n` renders `round_number(n / divider)` plus the
symbol; otherwise fall through to a `pluralize(n, 'byte')` byte count. -/
def format_size_loop (n : Int) : List (Int × Str) → Str
  | [] => intChars n ++ ' ' :: (if n = 1 then "byte".data else "bytes".data)
  | (divider, symbol) :: rest =>
    if divider ≤ n then round_number n divider ++ ' ' :: symbol
    else format_size_loop n rest

/-- `humanfriendly.format_size(n, binary=False)`. -/
def format_size (n : Int) : Str := format_size_loop n disk_size_units_desc

/-- Python `s.replace(old, new)` for nonempty `old`: replace non-overlapping
occurrences left to right. Structural in a fuel argument (the string length)
so the kernel can evaluate it. -/
def pyReplaceAux (old new : Str) : Nat → Str → Str
  | 0, s => s
  | fuel + 1, s =>
    match s with
    | [] => []
    | c :: rest =>
      if old.isPrefixOf s then new ++ pyReplaceAux old new fuel (s.drop old.length)
      else c :: pyReplaceAux old new fuel rest

/-- Python `s.replace(old, new)` (`old` nonempty at every use below). -/
def pyReplace (s old new : Str) : Str := pyReplaceAux old new s.length s

/-- `format_frequency(frequency_hz)`: `format_size` with the bytes-style
suffix rewritten, `.replace("B", "Hz").replace("bytes", "Hz")`. -/
def format_frequency (frequency_hz : Int) : Str :=
  pyReplace (pyReplace (format_size frequency_hz) "B".data "Hz".data) "bytes".data "Hz".data

/-- The error message of the invalid-card `ValueError`, distinguishing the
non-empty registry (lists the valid card ids) from the empty registry (no AMD
GPU / hwmon directory found); this f-string pair is repeated verbatim in
every sampler of the source. -/
def invalid_card_msg (cards : Registry) (card : Str) : Str :=
  if 0 < cards.length then
    "Invalid card: '".data ++ card ++ "'. Must be one of: ".data
      ++ pyStrListRepr (cards.map (fun p => p.1))
  else
    "Invalid card: '".data ++ card ++ "', no AMD GPUs or hwmon directories found".data

/-- The `if card in AMDGPU_CARDS: hwmon_dir = AMDGPU_CARDS[card] else: raise`
prologue repeated verbatim at the top of every sampler. -/
def resolve_card (cards : Registry) (card : Str) : Except PyErr Str :=
  match dlookup cards card with
  | some hwmon_dir => .ok hwmon_dir
  | none => .error (.valueError (invalid_card_msg cards card))

/-- Python's `int(...)` builtin applied to a sampler value: identity on an
int, decimal parse of a string (raising `ValueError` on malformed text). -/
def pyIntFn (v : PyVal) : Except PyErr Int :=
  match v with
  | .pint n => .ok n
  | .pstr s =>
    match pyInt s with
    | some n => .ok n
    | none =>
      .error (.valueError ("invalid literal for int() with base 10: ".data ++ pyStrRepr s))

/-- The `int(read_stat(file))` pattern used by the clock/fan/usage/temp
samplers. -/
def read_int_stat (fs : Fs) (file : Str) : Except PyErr Int := do
  pyIntFn (← read_stat fs file none)

/-- The `{'limit', 'average', 'capability', 'default'}` power snapshot. -/
structure PowerStats where
  limit : PyVal
  average : PyVal
  capability : PyVal
  default : PyVal
deriving Repr, DecidableEq

/-- `get_power_stats(card)`: validate the card, then read the four fixed
power files with `stat_type='power'` (microwatt → watt). -/
def get_power_stats (cards : Registry) (fs : Fs) (card : Str) : Except PyErr PowerStats := do
  let hwmon_dir ← resolve_card cards card
  let limit ← read_stat fs (pjoin hwmon_dir "power1_cap".data) (some "power".data)
  let average ← read_stat fs (pjoin hwmon_dir "power1_average".data) (some "power".data)
  let capability ← read_stat fs (pjoin hwmon_dir "power1_cap_max".data) (some "power".data)
  let dflt ← read_stat fs (pjoin hwmon_dir "power1_cap_default".data) (some "power".data)
  return ⟨limit, average, capability, dflt⟩

/-- `CLOCK_DOMAINS = ('core', 'memory')`. -/
def CLOCK_DOMAINS : List Str := ["core".data, "memory".data]

/-- `get_clock(card, domain, format_freq=False)`: validate the card, then the
domain; read `freq1_input` for `'core'` and `freq2_input` for `'memory'`
(the guard leaves exactly these two cases for the if/elif); return the raw
int, or the `format_frequency` text when `format_freq`. The domain message
interpolates the `CLOCK_DOMAINS` tuple, whose Python rendering is
`('core', 'memory')`. -/
def get_clock (cards : Registry) (fs : Fs) (card domain : Str)
    (format_freq : Bool := false) : Except PyErr PyVal := do
  let hwmon_dir ← resolve_card cards card
  if domain ∉ CLOCK_DOMAINS then
    .error (.valueError ("Invalid clock domain: '".data ++ domain
      ++ "'. Must be one of: ('core', 'memory')".data))
  else
    let clock_file := if domain = "core".data then pjoin hwmon_dir "freq1_input".data
      else pjoin hwmon_dir "freq2_input".data
    let n ← read_int_stat fs clock_file
    if format_freq then return .pstr (format_frequency n) else return .pint n

/-- `get_voltage(card)`: `round(int(read_stat(in0_input)) / 1000.0, 2)`,
modelled as the exact millivolt → volt quotient rounded half-to-even to two
decimals (Python computes on binary doubles; no claim observes the digits). -/
def get_voltage (cards : Registry) (fs : Fs) (card : Str) : Except PyErr ℚ := do
  let hwmon_dir ← resolve_card cards card
  let n ← read_int_stat fs (pjoin hwmon_dir "in0_input".data)
  return (rndHalfEven (100 * n) 1000 : ℚ) / 100

/-- `get_fan_rpm(card)`: `int(read_stat(fan1_input))`. -/
def get_fan_rpm (cards : Registry) (fs : Fs) (card : Str) : Except PyErr Int := do
  let hwmon_dir ← resolve_card cards card
  read_int_stat fs (pjoin hwmon_dir "fan1_input".data)

/-- `get_fan_target(card)`: `int(read_stat(fan1_target))`. -/
def get_fan_target (cards : Registry) (fs : Fs) (card : Str) : Except PyErr Int := do
  let hwmon_dir ← resolve_card cards card
  read_int_stat fs (pjoin hwmon_dir "fan1_target".data)

/-- `get_gpu_usage(card)`: `int(read_stat('/sys/class/drm/' + card +
'/device/gpu_busy_percent'))` (the file lives under the card's device node,
not the hwmon directory; `path.join` keeps the single slash of the prefix). -/
def get_gpu_usage (cards : Registry) (fs : Fs) (card : Str) : Except PyErr Int :=
  match dlookup cards card with
  | some _ =>
      read_int_stat fs (pjoin (pjoin "/sys/class/drm/".data card) "device/gpu_busy_percent".data)
  | none => .error (.valueError (invalid_card_msg cards card))

/-- The sibling value file of a `tempN_label` file: `temp_node_id` is
`path.basename(label_file).split('_')[0]` and the value file is
`path.join(hwmon_dir, f"(temp_node_id)_input")`. -/
def tempInputOf (hwmon_dir label_file : Str) : Str :=
  pjoin hwmon_dir (((basename label_file).takeWhile (· != '_')) ++ "_input".data)

/-- First loop of `get_temp_stats`: for each globbed `tempN_label` file, read
its stripped contents as the sensor name and record
`name → hwmon_dir/tempN_input` (same `N`). -/
def temp_files_loop (fs : Fs) (hwmon_dir : Str) :
    List Str → List (Str × Str) → Except PyErr (List (Str × Str))
  | [], temp_files => .ok temp_files
  | label_file :: rest, temp_files =>
    match fs.contents label_file with
    | none => .error (.ioError label_file)
    | some raw =>
      temp_files_loop fs hwmon_dir rest
        (dictInsert temp_files (pyStrip raw) (tempInputOf hwmon_dir label_file))

/-- Second loop of `get_temp_stats`: read every discovered sensor's value
file and record `name → int(int(read_stat(file)) // 1000)` (millidegree →
degree, floor division). -/
def temp_update_loop (fs : Fs) :
    List (Str × Str) → List (Str × Int) → Except PyErr (List (Str × Int))
  | [], temp_update => .ok temp_update
  | (temp_node, temp_file) :: rest, temp_update => do
    let v ← read_int_stat fs temp_file
    temp_update_loop fs rest (dictInsert temp_update temp_node (Int.fdiv v 1000))

/-- `get_temp_stats(card)`: validate the card, re-discover the labelled
temperature sensors of its hwmon directory fresh, then read and convert each
one. -/
def get_temp_stats (cards : Registry) (fs : Fs) (card : Str) :
    Except PyErr (List (Str × Int)) := do
  let hwmon_dir ← resolve_card cards card
  let temp_files ← temp_files_loop fs hwmon_dir (fs.tempLabelGlob hwmon_dir) []
  temp_update_loop fs temp_files []

/-- The `{'sclk', 'mclk', 'voltage', 'util_pct'}` core snapshot. -/
structure CoreStats where
  sclk : PyVal
  mclk : PyVal
  voltage : ℚ
  util_pct : Int
deriving Repr, DecidableEq

/-- `get_core_stats(card)`: validate the card, then compose `get_clock` on
both domains, `get_voltage` and `get_gpu_usage`. -/
def get_core_stats (cards : Registry) (fs : Fs) (card : Str) : Except PyErr CoreStats :=
  if hasKey cards card then do
    let sclk ← get_clock cards fs card "core".data
    let mclk ← get_clock cards fs card "memory".data
    let voltage ← get_voltage cards fs card
    let util_pct ← get_gpu_usage cards fs card
    return ⟨sclk, mclk, voltage, util_pct⟩
  else if 0 < cards.length then
    .error (.valueError ("Invalid card: '".data ++ card ++ "'. Must be one of: ".data
      ++ pyStrListRepr (cards.map (fun p => p.1))))
  else
    .error (.valueError ("Invalid card: '".data ++ card
      ++ "', no AMD GPUs or hwmon directories found".data))

/-! ## Observers used by the theorem statements -/

/-- Whether an enumerated `name` file reads (stripped) exactly the vendor
string `'amdgpu'`. -/
def matchesAmd (fs : Fs) (f : Str) : Bool :=
  match fs.contents f with
  | some raw => pyStrip raw == "amdgpu".data
  | none => false

/-- The card identifier a `name` file path contributes:
`hwmon_name_file.split('/')[4]`. -/
def cardOf (f : Str) : Option Str := (splitChar '/' f)[4]?

/-- The hwmon directory of the *last-enumerated* vendor-matching `name` file
for card `c`, scanning the enumeration right to left. -/
def lastMatchDir (fs : Fs) (c : Str) : List Str → Option Str
  | [] => none
  | f :: rest =>
    match lastMatchDir fs c rest with
    | some d => some d
    | none =>
      if matchesAmd fs f && (cardOf f == some c) then some (dirname f) else none

/-- Modelled from the spec, for comparison with `format_frequency`: the unit
the spec prescribes for a frequency — "the largest power-of-1000 unit such
that the scaled value is ≥ 1", with the suffix ending in `"Hz"`. -/
def specFrequencyUnitLoop (h : Int) : List (Int × Str) → Str
  | [] => "Hz".data
  | (divider, symbol) :: rest =>
    if divider ≤ h then symbol else specFrequencyUnitLoop h rest

/-- Modelled from the spec: the unit suffix `format_frequency` is claimed to
choose, largest power-of-1000 first. -/
def specFrequencyUnit (h : Int) : Str :=
  specFrequencyUnitLoop h
    [(1000 ^ 8, "YHz".data), (1000 ^ 7, "ZHz".data), (1000 ^ 6, "EHz".data),
     (1000 ^ 5, "PHz".data), (1000 ^ 4, "THz".data), (1000 ^ 3, "GHz".data),
     (1000 ^ 2, "MHz".data), (1000 ^ 1, "KHz".data)]

/-- Modelled from the spec (§4.5): the `{'fan_rpm', 'fan_rpm_target'}` fan
snapshot. The source exposes the two reads as the separate samplers
`get_fan_rpm` and `get_fan_target`; this type packages them per the spec. -/
structure FanStats where
  fan_rpm : Int
  fan_rpm_target : Int
deriving Repr, DecidableEq

/-- Modelled from the spec (§4.5): `get_fan_stats(card) ->
{fan_rpm, fan_rpm_target}`, reading the two fixed-named integer files
`fan1_input` and `fan1_target` from the card's monitoring directory after
the shared card validation. -/
def spec_get_fan_stats (cards : Registry) (fs : Fs) (card : Str) : Except PyErr FanStats := do
  let hwmon_dir ← resolve_card cards card
  let fan_rpm ← read_int_stat fs (pjoin hwmon_dir "fan1_input".data)
  let fan_rpm_target ← read_int_stat fs (pjoin hwmon_dir "fan1_target".data)
  return ⟨fan_rpm, fan_rpm_target⟩

/-! ## General lemmas about the embedded primitives -/

@[simp]
theorem except_bind_ok (a : α) (f : α → Except ε β) :
    (Except.ok a : Except ε α) >>= f = f a := rfl

@[simp]
theorem except_bind_error (e : ε) (f : α → Except ε β) :
    (Except.error e : Except ε α) >>= f = Except.error e := rfl

theorem dlookup_dictInsert_self (d : List (Str × α)) (k : Str) (v : α) :
    dlookup (dictInsert d k v) k = some v := by
  induction d with
  | nil => simp [dictInsert, dlookup]
  | cons p rest ih =>
    by_cases hp : p.1 = k
    · simp [dictInsert, hp, dlookup]
    · simp [dictInsert, hp, dlookup, ih]

theorem dlookup_dictInsert_ne (d : List (Str × α)) {k k' : Str} (v : α) (h : k' ≠ k) :
    dlookup (dictInsert d k v) k' = dlookup d k' := by
  induction d with
  | nil => simp [dictInsert, dlookup, Ne.symm h]
  | cons p rest ih =>
    by_cases hp : p.1 = k
    · simp [dictInsert, hp, dlookup, Ne.symm h, h]
    · by_cases hp' : p.1 = k'
      · simp [dictInsert, hp, dlookup, hp', h]
      · simp [dictInsert, hp, dlookup, hp', ih]

theorem mem_dictInsert (d : List (Str × α)) (k : Str) (v : α) (e : Str × α) :
    e ∈ dictInsert d k v → e = (k, v) ∨ e ∈ d := by
  induction d with
  | nil => simp [dictInsert]
  | cons p rest ih =>
    by_cases hp : p.1 = k
    · simp only [dictInsert, if_pos hp, List.mem_cons]
      rintro (h | h)
      · exact Or.inl h
      · exact Or.inr (Or.inr h)
    · simp only [dictInsert, if_neg hp, List.mem_cons]
      rintro (h | h)
      · exact Or.inr (Or.inl h)
      · rcases ih h with h' | h'
        · exact Or.inl h'
        · exact Or.inr (Or.inr h')

theorem hasKey_false_iff_dlookup_none (d : List (Str × α)) (k : Str) :
    hasKey d k = false ↔ dlookup d k = none := by
  induction d with
  | nil => simp [hasKey, dlookup]
  | cons p rest ih =>
    by_cases hp : p.1 = k
    · simp [hasKey, dlookup, hp]
    · simp [hasKey, dlookup, hp, ih]

theorem dictInsert_of_hasKey_false (d : List (Str × α)) (k : Str) (v : α)
    (h : hasKey d k = false) : dictInsert d k v = d ++ [(k, v)] := by
  induction d with
  | nil => simp [dictInsert]
  | cons p rest ih =>
    by_cases hp : p.1 = k
    · simp [hasKey, hp] at h
    · simp only [hasKey, if_neg hp] at h
      simp [dictInsert, hp, ih h]

/-- The shared validation prologue raises the invalid-card `ValueError` when
the card is not a registry key. -/
theorem resolve_card_error (cards : Registry) (card : Str)
    (h : dlookup cards card = none) :
    resolve_card cards card = .error (.valueError (invalid_card_msg cards card)) := by
  simp [resolve_card, h]

/-- The shared validation prologue yields the hwmon directory of a registered
card. -/
theorem resolve_card_ok (cards : Registry) (card dir : Str)
    (h : dlookup cards card = some dir) : resolve_card cards card = .ok dir := by
  simp [resolve_card, h]

/-! ## Concrete fixtures for witnesses -/

/-- Build a contents map from a finite list of (path, contents) pairs. -/
def contentsOf (files : List (Str × Str)) : Str → Option Str := fun f => dlookup files f

/-- A hwmon directory used by the concrete fixtures. -/
def hw0 : Str := "/sys/class/drm/card0/device/hwmon/hwmon0".data

/-- A one-card registry fixture. -/
def regA : Registry := [("card0".data, hw0)]

/-- Fixture filesystem with fan and power files under `hw0`. -/
def fsFix : Fs where
  hwmonNameGlob := []
  tempLabelGlob := fun _ => []
  contents := contentsOf
    [("/sys/class/drm/card0/device/hwmon/hwmon0/fan1_input".data, "1500".data),
     ("/sys/class/drm/card0/device/hwmon/hwmon0/fan1_target".data, "1600".data),
     ("/sys/class/drm/card0/device/hwmon/hwmon0/power1_cap".data, "280000000".data),
     ("/sys/class/drm/card0/device/hwmon/hwmon0/power1_average".data, "15234567".data),
     ("/sys/class/drm/card0/device/hwmon/hwmon0/power1_cap_max".data, "300000000".data),
     ("/sys/class/drm/card0/device/hwmon/hwmon0/power1_cap_default".data, "280000000".data)]

/-! ## Claim theorems -/

/-- C9: `read_stat` applies the microwatt-to-watt conversion only when
`stat_type` is exactly the string `'power'`; for every file contents and
every other `stat_type` argument (`None`, other strings, case variants) it
returns the file's stripped text unchanged as a string. -/
theorem C9_read_stat_power_only (fs : Fs) (file : Str) (stat_type : Option Str)
    (raw : Str) (hst : stat_type ≠ some "power".data)
    (hc : fs.contents file = some raw) :
    read_stat fs file stat_type = .ok (.pstr (pyStrip raw)) := by
  simp [read_stat, hc, hst]

theorem C9_witness :
    read_stat fsFix "/sys/class/drm/card0/device/hwmon/hwmon0/fan1_input".data none
      = .ok (.pstr "1500".data)
    ∧ read_stat fsFix "/sys/class/drm/card0/device/hwmon/hwmon0/power1_average".data
        (some "Power".data) = .ok (.pstr "15234567".data) :=
  ⟨C9_read_stat_power_only fsFix _ none "1500".data (by decide) (by decide),
   C9_read_stat_power_only fsFix _ (some "Power".data) "15234567".data (by decide) (by decide)⟩

/-- C2: every sampler (power, core, clock, voltage, fan rpm, fan target,
usage, temperature), called with a card that is not a registry key, fails
with the invalid-card `ValueError`, whose message lists the valid card ids
when the registry is non-empty and states that no AMD GPU / hwmon directory
was found when it is empty. -/
theorem C2_invalid_card_all_samplers (cards : Registry) (fs : Fs)
    (card domain : Str) (fmt : Bool) (h : dlookup cards card = none) :
    get_power_stats cards fs card = .error (.valueError (invalid_card_msg cards card)) ∧
    get_core_stats cards fs card = .error (.valueError (invalid_card_msg cards card)) ∧
    get_clock cards fs card domain fmt = .error (.valueError (invalid_card_msg cards card)) ∧
    get_voltage cards fs card = .error (.valueError (invalid_card_msg cards card)) ∧
    get_fan_rpm cards fs card = .error (.valueError (invalid_card_msg cards card)) ∧
    get_fan_target cards fs card = .error (.valueError (invalid_card_msg cards card)) ∧
    get_gpu_usage cards fs card = .error (.valueError (invalid_card_msg cards card)) ∧
    get_temp_stats cards fs card = .error (.valueError (invalid_card_msg cards card)) ∧
    (0 < cards.length →
      invalid_card_msg cards card =
        "Invalid card: '".data ++ card ++ "'. Must be one of: ".data
          ++ pyStrListRepr (cards.map (fun p => p.1))) ∧
    (cards = [] →
      invalid_card_msg cards card =
        "Invalid card: '".data ++ card ++ "', no AMD GPUs or hwmon directories found".data) := by
  have hk : hasKey cards card = false := (hasKey_false_iff_dlookup_none cards card).mpr h
  refine ⟨?_, ?_, ?_, ?_, ?_, ?_, ?_, ?_, ?_, ?_⟩
  · simp [get_power_stats, resolve_card_error _ _ h]
  · by_cases hl : 0 < cards.length
    · simp [get_core_stats, hk, invalid_card_msg, hl]
    · simp [get_core_stats, hk, invalid_card_msg, hl]
  · simp [get_clock, resolve_card_error _ _ h]
  · simp [get_voltage, resolve_card_error _ _ h]
  · simp [get_fan_rpm, resolve_card_error _ _ h]
  · simp [get_fan_target, resolve_card_error _ _ h]
  · simp [get_gpu_usage, h]
  · simp [get_temp_stats, resolve_card_error _ _ h]
  · intro hl
    simp [invalid_card_msg, hl]
  · intro hl
    subst hl
    simp [invalid_card_msg]

theorem C2_witness :
    get_power_stats regA fsFix "card1".data
      = .error (.valueError (invalid_card_msg regA "card1".data))
    ∧ get_temp_stats ([] : Registry) fsFix "card0".data
        = .error (.valueError (invalid_card_msg [] "card0".data))
    ∧ invalid_card_msg regA "card1".data
        = "Invalid card: 'card1'. Must be one of: ['card0']".data
    ∧ invalid_card_msg [] "card0".data
        = "Invalid card: 'card0', no AMD GPUs or hwmon directories found".data :=
  ⟨(C2_invalid_card_all_samplers regA fsFix "card1".data "core".data false (by decide)).1,
   (C2_invalid_card_all_samplers [] fsFix "card0".data "core".data false
      (by decide)).2.2.2.2.2.2.2.1,
   by decide, by decide⟩

/-- C10: in `get_clock`, card validation strictly precedes domain validation:
an unregistered card raises the invalid-card error for every domain string,
and the invalid-clock-domain `ValueError` is raised exactly when the card is
registered and the domain is outside `('core', 'memory')`. -/
theorem C10_card_check_precedes_domain (cards : Registry) (fs : Fs)
    (card domain : Str) (fmt : Bool) :
    (dlookup cards card = none →
      get_clock cards fs card domain fmt
        = .error (.valueError (invalid_card_msg cards card))) ∧
    (∀ dir, dlookup cards card = some dir → domain ∉ CLOCK_DOMAINS →
      get_clock cards fs card domain fmt
        = .error (.valueError ("Invalid clock domain: '".data ++ domain
            ++ "'. Must be one of: ('core', 'memory')".data))) := by
  constructor
  · intro h
    simp [get_clock, resolve_card_error _ _ h]
  · intro dir hdir hdom
    simp [get_clock, resolve_card_ok _ _ _ hdir, hdom]

theorem C10_witness :
    get_clock regA fsFix "card1".data "bogus".data false
      = .error (.valueError (invalid_card_msg regA "card1".data))
    ∧ get_clock regA fsFix "card0".data "bogus".data false
        = .error (.valueError ("Invalid clock domain: '".data ++ "bogus".data
            ++ "'. Must be one of: ('core', 'memory')".data)) :=
  ⟨(C10_card_check_precedes_domain regA fsFix "card1".data "bogus".data false).1 (by decide),
   (C10_card_check_precedes_domain regA fsFix "card0".data "bogus".data false).2 hw0
     (by decide) (by decide)⟩

/-- C8: for a registered card, the fan statistics are sampled by reading
exactly the two fixed-named integer files `fan1_input` and `fan1_target` of
the card's monitoring directory — the source exposes them as `get_fan_rpm`
and `get_fan_target`, and the spec's combined `get_fan_stats` snapshot
`{fan_rpm, fan_rpm_target}` is exactly their pairing. -/
theorem C8_fan_sampler (cards : Registry) (fs : Fs) (card dir : Str)
    (h : dlookup cards card = some dir) :
    get_fan_rpm cards fs card = read_int_stat fs (pjoin dir "fan1_input".data) ∧
    get_fan_target cards fs card = read_int_stat fs (pjoin dir "fan1_target".data) ∧
    (∀ r t, read_int_stat fs (pjoin dir "fan1_input".data) = .ok r →
      read_int_stat fs (pjoin dir "fan1_target".data) = .ok t →
      spec_get_fan_stats cards fs card = .ok ⟨r, t⟩) := by
  refine ⟨?_, ?_, ?_⟩
  · simp [get_fan_rpm, resolve_card_ok _ _ _ h]
  · simp [get_fan_target, resolve_card_ok _ _ _ h]
  · intro r t hr ht
    simp [spec_get_fan_stats, resolve_card_ok _ _ _ h, hr, ht]

theorem C8_witness :
    spec_get_fan_stats regA fsFix "card0".data = .ok ⟨1500, 1600⟩ :=
  (C8_fan_sampler regA fsFix "card0".data hw0 (by decide)).2.2 1500 1600
    (by decide) (by decide)

theorem option_or_none (o : Option α) : o.or none = o := by cases o <;> rfl

theorem option_some_or (a : α) (o : Option α) : (some a).or o = some a := rfl

theorem option_or_assoc (a b c : Option α) : (a.or b).or c = a.or (b.or c) := by
  cases a <;> rfl

/-- Case analysis of a successful `find_cards` loop step: either the `name`
file did not match the vendor and the accumulator is untouched, or it did
and the card maps (insert-or-overwrite) to the file's directory. -/
theorem find_cards_step_cases (fs : Fs) (acc : Registry) (f : Str) (acc' : Registry)
    (h : find_cards_step fs acc f = .ok acc') :
    (matchesAmd fs f = false ∧ acc' = acc) ∨
    (∃ card, matchesAmd fs f = true ∧ cardOf f = some card
      ∧ acc' = dictInsert acc card (dirname f)) := by
  rcases hcont : fs.contents f with _ | raw
  · simp [find_cards_step, hcont] at h
  · by_cases hamd : pyStrip raw = "amdgpu".data
    · rcases hcard : (splitChar '/' f)[4]? with _ | card
      · simp [find_cards_step, hcont, hamd, hcard] at h
      · refine Or.inr ⟨card, ?_, ?_, ?_⟩
        · simp [matchesAmd, hcont, hamd]
        · simp [cardOf, hcard]
        · simp [find_cards_step, hcont, hamd, hcard] at h
          exact h.symm
    · refine Or.inl ⟨?_, ?_⟩
      · simp [matchesAmd, hcont, hamd]
      · simp [find_cards_step, hcont, hamd] at h
        exact h.symm

/-- The registry built by the `find_cards` loop resolves a card to the
hwmon directory of the last-enumerated matching `name` file, falling back to
the accumulator. -/
theorem find_cards_loop_lookup (fs : Fs) (c : Str) :
    ∀ (l : List Str) (acc reg : Registry),
      find_cards_loop fs l acc = .ok reg →
      dlookup reg c = (lastMatchDir fs c l).or (dlookup acc c) := by
  intro l
  induction l with
  | nil =>
    intro acc reg h
    simp [find_cards_loop] at h
    subst h
    rfl
  | cons f rest ih =>
    intro acc reg h
    rcases hstep : find_cards_step fs acc f with e | acc'
    · simp [find_cards_loop, hstep] at h
    · simp only [find_cards_loop, hstep] at h
      have hIH := ih acc' reg h
      have hcons : lastMatchDir fs c (f :: rest)
          = (lastMatchDir fs c rest).or
              (if (matchesAmd fs f && (cardOf f == some c)) = true
               then some (dirname f) else none) := by
        rcases hl : lastMatchDir fs c rest with _ | d
        · simp only [lastMatchDir, hl]
          rfl
        · simp only [lastMatchDir, hl]
          rfl
      rcases find_cards_step_cases fs acc f acc' hstep with ⟨hm, rfl⟩ | ⟨card, hm, hcard, hacc'⟩
      · have hcond : (matchesAmd fs f && (cardOf f == some c)) = false := by
          simp [hm]
        rw [hcons, hcond, if_neg Bool.false_ne_true, option_or_none]
        exact hIH
      · subst hacc'
        by_cases hc : card = c
        · subst hc
          have hcond : (matchesAmd fs f && (cardOf f == some card)) = true := by
            simp [hm, hcard]
          rw [hcons, hcond, if_pos rfl, option_or_assoc, option_some_or]
          rw [dlookup_dictInsert_self] at hIH
          exact hIH
        · have hcond : (matchesAmd fs f && (cardOf f == some c)) = false := by
            simp [hcard, hc]
          rw [hcons, hcond, if_neg Bool.false_ne_true, option_or_none]
          rw [dlookup_dictInsert_ne _ _ (Ne.symm hc)] at hIH
          exact hIH

/-- C1: `find_cards` resolves every card to the hwmon directory of the
*last-enumerated* vendor-matching `name` file for that card — later
enumeration order overwrites earlier (overwrite, not merge, not first-match,
not an error); with two matching hwmon instances under the same card, the
second-enumerated directory wins. -/
theorem C1_last_enumeration_wins (fs : Fs) (reg : Registry) (c : Str)
    (h : find_cards fs = .ok reg) :
    dlookup reg c = lastMatchDir fs c fs.hwmonNameGlob := by
  have hx := find_cards_loop_lookup fs c fs.hwmonNameGlob [] reg h
  rw [show dlookup ([] : Registry) c = none from rfl, option_or_none] at hx
  exact hx

/-- Fixture: two hwmon instances under the same card, both vendor-matching,
`hwmon0` enumerated before `hwmon1`. -/
def fsDup : Fs where
  hwmonNameGlob := ["/sys/class/drm/card0/device/hwmon/hwmon0/name".data,
                    "/sys/class/drm/card0/device/hwmon/hwmon1/name".data]
  tempLabelGlob := fun _ => []
  contents := contentsOf
    [("/sys/class/drm/card0/device/hwmon/hwmon0/name".data, "amdgpu\n".data),
     ("/sys/class/drm/card0/device/hwmon/hwmon1/name".data, "amdgpu\n".data)]

theorem C1_witness :
    find_cards fsDup
      = .ok [("card0".data, "/sys/class/drm/card0/device/hwmon/hwmon1".data)]
    ∧ dlookup [("card0".data, "/sys/class/drm/card0/device/hwmon/hwmon1".data)]
        "card0".data = lastMatchDir fsDup "card0".data fsDup.hwmonNameGlob :=
  ⟨by decide, C1_last_enumeration_wins fsDup _ "card0".data (by decide)⟩

/-- A loop run over entirely non-matching, readable `name` files leaves the
accumulator untouched. -/
theorem find_cards_loop_nomatch (fs : Fs) :
    ∀ (l : List Str) (acc : Registry),
      (∀ f ∈ l, matchesAmd fs f = false ∧ (fs.contents f).isSome) →
      find_cards_loop fs l acc = .ok acc := by
  intro l
  induction l with
  | nil => intro acc _; simp [find_cards_loop]
  | cons f rest ih =>
    intro acc h
    obtain ⟨hm, hs⟩ := h f (List.mem_cons_self _ _)
    rcases hcont : fs.contents f with _ | raw
    · simp [hcont] at hs
    · have hamd : ¬ pyStrip raw = "amdgpu".data := by
        simp [matchesAmd, hcont] at hm
        exact hm
      have hstep : find_cards_step fs acc f = .ok acc := by
        simp [find_cards_step, hcont, hamd]
      simp only [find_cards_loop, hstep]
      exact ih acc (fun g hg => h g (List.mem_cons_of_mem _ hg))

/-- Every entry the loop adds comes from a vendor-matching enumerated file. -/
theorem find_cards_loop_mem (fs : Fs) :
    ∀ (l : List Str) (acc reg : Registry), find_cards_loop fs l acc = .ok reg →
      ∀ e ∈ reg,
        (∃ f ∈ l, matchesAmd fs f = true ∧ cardOf f = some e.1 ∧ dirname f = e.2)
          ∨ e ∈ acc := by
  intro l
  induction l with
  | nil =>
    intro acc reg h e he
    simp [find_cards_loop] at h
    subst h
    exact Or.inr he
  | cons f rest ih =>
    intro acc reg h e he
    rcases hstep : find_cards_step fs acc f with err | acc'
    · simp [find_cards_loop, hstep] at h
    · simp only [find_cards_loop, hstep] at h
      rcases ih acc' reg h e he with ⟨g, hg, hprop⟩ | hmem
      · exact Or.inl ⟨g, List.mem_cons_of_mem _ hg, hprop⟩
      · rcases find_cards_step_cases fs acc f acc' hstep with ⟨_, rfl⟩ | ⟨card, hm, hcard, hacc'⟩
        · exact Or.inr hmem
        · subst hacc'
          rcases mem_dictInsert _ _ _ _ hmem with hnew | hold
          · subst hnew
            exact Or.inl ⟨f, List.mem_cons_self _ _, hm, hcard, rfl⟩
          · exact Or.inr hold

/-- C7: `find_cards` on a namespace with zero vendor-matching `name` files
returns the empty registry without failing, and every entry of any returned
registry corresponds to an enumerated `name` file that read (stripped)
exactly `'amdgpu'`, with the entry's key the card path component and its
value that file's hwmon directory. -/
theorem C7_empty_and_vendor_invariant (fs : Fs) :
    ((∀ f ∈ fs.hwmonNameGlob, matchesAmd fs f = false ∧ (fs.contents f).isSome) →
      find_cards fs = .ok []) ∧
    (∀ reg, find_cards fs = .ok reg → ∀ e ∈ reg,
      ∃ f ∈ fs.hwmonNameGlob, matchesAmd fs f = true
        ∧ cardOf f = some e.1 ∧ dirname f = e.2) := by
  constructor
  · intro h
    exact find_cards_loop_nomatch fs fs.hwmonNameGlob [] h
  · intro reg h e he
    rcases find_cards_loop_mem fs fs.hwmonNameGlob [] reg h e he with hex | hmem
    · exact hex
    · simp at hmem

/-- Fixture: one enumerated `name` file, readable but not vendor-matching. -/
def fsNoMatch : Fs where
  hwmonNameGlob := ["/sys/class/drm/card0/device/hwmon/hwmon0/name".data]
  tempLabelGlob := fun _ => []
  contents := contentsOf
    [("/sys/class/drm/card0/device/hwmon/hwmon0/name".data, "nvidia\n".data)]

theorem C7_witness :
    find_cards fsNoMatch = .ok []
    ∧ (∃ f ∈ fsDup.hwmonNameGlob, matchesAmd fsDup f = true
        ∧ cardOf f = some "card0".data
        ∧ dirname f = "/sys/class/drm/card0/device/hwmon/hwmon1".data) :=
  ⟨(C7_empty_and_vendor_invariant fsNoMatch).1 (by decide),
   (C7_empty_and_vendor_invariant fsDup).2
     [("card0".data, "/sys/class/drm/card0/device/hwmon/hwmon1".data)] (by decide)
     ("card0".data, "/sys/class/drm/card0/device/hwmon/hwmon1".data) (by decide)⟩

/-- C5 counterexample fixture: all four power files hold `"-1500000"`. -/
def fsNegPow : Fs where
  hwmonNameGlob := []
  tempLabelGlob := fun _ => []
  contents := contentsOf
    [("/sys/class/drm/card0/device/hwmon/hwmon0/power1_cap".data, "-1500000".data),
     ("/sys/class/drm/card0/device/hwmon/hwmon0/power1_average".data, "-1500000".data),
     ("/sys/class/drm/card0/device/hwmon/hwmon0/power1_cap_max".data, "-1500000".data),
     ("/sys/class/drm/card0/device/hwmon/hwmon0/power1_cap_default".data, "-1500000".data)]

/-- C5 counterexample: the claim says each power field is the microwatt value
*floor*-divided by 1,000,000, but the code computes `int(int(data)/1000000)`,
which truncates toward zero: on contents `"-1500000"` the code yields `-1`
while floor division yields `-2`. -/
theorem C5_counterexample :
    get_power_stats regA fsNegPow "card0".data
      = .ok ⟨.pint (-1), .pint (-1), .pint (-1), .pint (-1)⟩
    ∧ Int.fdiv (-1500000) 1000000 = -2
    ∧ ((-1 : Int) ≠ (-2 : Int)) :=
  ⟨by decide, by decide, by decide⟩

/-- C5 (amended): for a registered card whose four power files hold integer
microwatt text `m`, `get_power_stats` returns
`{limit, average, capability, default}` with each field equal to `m` divided
by 1,000,000 *truncated toward zero* (which is floor division for the
non-negative values these files hold in practice); in particular
`power1_average` containing `"15234567"` yields `average = 15`. -/
theorem C5_power_conversion (cards : Registry) (fs : Fs) (card dir : Str)
    (s₁ s₂ s₃ s₄ : Str) (m₁ m₂ m₃ m₄ : Int)
    (hdir : dlookup cards card = some dir)
    (h₁ : fs.contents (pjoin dir "power1_cap".data) = some s₁)
    (h₂ : fs.contents (pjoin dir "power1_average".data) = some s₂)
    (h₃ : fs.contents (pjoin dir "power1_cap_max".data) = some s₃)
    (h₄ : fs.contents (pjoin dir "power1_cap_default".data) = some s₄)
    (p₁ : pyInt (pyStrip s₁) = some m₁) (p₂ : pyInt (pyStrip s₂) = some m₂)
    (p₃ : pyInt (pyStrip s₃) = some m₃) (p₄ : pyInt (pyStrip s₄) = some m₄) :
    get_power_stats cards fs card
      = .ok ⟨.pint (Int.tdiv m₁ 1000000), .pint (Int.tdiv m₂ 1000000),
             .pint (Int.tdiv m₃ 1000000), .pint (Int.tdiv m₄ 1000000)⟩ := by
  simp [get_power_stats, resolve_card_ok _ _ _ hdir, read_stat,
    h₁, h₂, h₃, h₄, p₁, p₂, p₃, p₄, microwattToWatt]

theorem C5_witness :
    get_power_stats regA fsFix "card0".data
      = .ok ⟨.pint 280, .pint 15, .pint 300, .pint 280⟩ := by
  have h := C5_power_conversion regA fsFix "card0".data hw0
    "280000000".data "15234567".data "300000000".data "280000000".data
    280000000 15234567 300000000 280000000 (by decide)
    (by decide) (by decide) (by decide) (by decide)
    (by decide) (by decide) (by decide) (by decide)
  rw [h]
  decide

theorem hasKey_true_of_dlookup (d : List (Str × α)) (k : Str) (v : α)
    (h : dlookup d k = some v) : hasKey d k = true := by
  cases hk : hasKey d k
  · rw [(hasKey_false_iff_dlookup_none d k).mp hk] at h
    cases h
  · rfl

/-- A failing label-file read fails the sensor-discovery loop. -/
theorem temp_files_loop_fail (fs : Fs) (dir : Str) :
    ∀ (l : List Str) (acc : List (Str × Str)),
      (∃ L ∈ l, fs.contents L = none) →
      ∃ e, temp_files_loop fs dir l acc = .error e := by
  intro l
  induction l with
  | nil => intro acc h; simp at h
  | cons L0 rest ih =>
    intro acc h
    rcases hc : fs.contents L0 with _ | raw
    · exact ⟨.ioError L0, by simp [temp_files_loop, hc]⟩
    · obtain ⟨L, hL, hnone⟩ := h
      rcases List.mem_cons.mp hL with rfl | hL'
      · rw [hc] at hnone; cases hnone
      · obtain ⟨e, he⟩ := ih (dictInsert acc (pyStrip raw) (tempInputOf dir L0)) ⟨L, hL', hnone⟩
        exact ⟨e, by simp [temp_files_loop, hc, he]⟩

/-- A failing value-file read fails the sensor-readout loop. -/
theorem temp_update_loop_fail (fs : Fs) :
    ∀ (d : List (Str × Str)) (acc : List (Str × Int)),
      (∃ p ∈ d, ∃ e, read_int_stat fs p.2 = .error e) →
      ∃ e, temp_update_loop fs d acc = .error e := by
  intro d
  induction d with
  | nil => intro acc h; simp at h
  | cons p0 rest ih =>
    intro acc h
    rcases hr : read_int_stat fs p0.2 with e0 | v0
    · exact ⟨e0, by simp [temp_update_loop, hr]⟩
    · obtain ⟨p, hp, e, he⟩ := h
      rcases List.mem_cons.mp hp with rfl | hp'
      · rw [hr] at he; cases he
      · obtain ⟨e', he'⟩ := ih (dictInsert acc p0.1 (Int.fdiv v0 1000)) ⟨p, hp', e, he⟩
        exact ⟨e', by simp [temp_update_loop, hr, he']⟩

/-- `get_clock` on domain `'core'` for a registered card is exactly the
integer read of `freq1_input`. -/
theorem get_clock_core_eq (cards : Registry) (fs : Fs) (card dir : Str)
    (hdir : dlookup cards card = some dir) :
    get_clock cards fs card "core".data false
      = match read_int_stat fs (pjoin dir "freq1_input".data) with
        | .ok n => .ok (.pint n)
        | .error e => .error e := by
  rcases h : read_int_stat fs (pjoin dir "freq1_input".data) with e | n <;>
    simp [get_clock, resolve_card_ok _ _ _ hdir,
      if_neg (by decide : ¬("core".data ∉ CLOCK_DOMAINS)), h]

/-- `get_clock` on domain `'memory'` for a registered card is exactly the
integer read of `freq2_input`. -/
theorem get_clock_memory_eq (cards : Registry) (fs : Fs) (card dir : Str)
    (hdir : dlookup cards card = some dir) :
    get_clock cards fs card "memory".data false
      = match read_int_stat fs (pjoin dir "freq2_input".data) with
        | .ok n => .ok (.pint n)
        | .error e => .error e := by
  rcases h : read_int_stat fs (pjoin dir "freq2_input".data) with e | n <;>
    simp [get_clock, resolve_card_ok _ _ _ hdir,
      if_neg (by decide : ¬("memory".data ∉ CLOCK_DOMAINS)),
      if_neg (by decide : ¬("memory".data = "core".data)), h]

/-- C3: snapshots are atomic. For a registered card: if any of the four power
reads fails, `get_power_stats` as a whole fails; a returned power snapshot
always carries the results of all four successful reads (never a partial
one); if any clock/voltage/usage read fails, `get_core_stats` fails; and if
any temperature label or value read fails, `get_temp_stats` fails. -/
theorem C3_atomic_snapshots (cards : Registry) (fs : Fs) (card dir : Str)
    (hdir : dlookup cards card = some dir) :
    ((∃ f ∈ [pjoin dir "power1_cap".data, pjoin dir "power1_average".data,
              pjoin dir "power1_cap_max".data, pjoin dir "power1_cap_default".data],
        ∃ e, read_stat fs f (some "power".data) = .error e) →
      ∃ e, get_power_stats cards fs card = .error e) ∧
    (∀ ps, get_power_stats cards fs card = .ok ps →
      read_stat fs (pjoin dir "power1_cap".data) (some "power".data) = .ok ps.limit ∧
      read_stat fs (pjoin dir "power1_average".data) (some "power".data) = .ok ps.average ∧
      read_stat fs (pjoin dir "power1_cap_max".data) (some "power".data) = .ok ps.capability ∧
      read_stat fs (pjoin dir "power1_cap_default".data) (some "power".data) = .ok ps.default) ∧
    ((∃ f ∈ [pjoin dir "freq1_input".data, pjoin dir "freq2_input".data,
              pjoin dir "in0_input".data,
              pjoin (pjoin "/sys/class/drm/".data card) "device/gpu_busy_percent".data],
        ∃ e, read_int_stat fs f = .error e) →
      ∃ e, get_core_stats cards fs card = .error e) ∧
    (((∃ L ∈ fs.tempLabelGlob dir, fs.contents L = none) ∨
      (∃ tf, temp_files_loop fs dir (fs.tempLabelGlob dir) [] = .ok tf ∧
        ∃ p ∈ tf, ∃ e, read_int_stat fs p.2 = .error e)) →
      ∃ e, get_temp_stats cards fs card = .error e) := by
  have hkey : hasKey cards card = true := hasKey_true_of_dlookup _ _ _ hdir
  refine ⟨?_, ?_, ?_, ?_⟩
  · -- power: any failing read fails the call
    intro hfail
    obtain ⟨f, hf, e, he⟩ := hfail
    simp only [get_power_stats, resolve_card_ok _ _ _ hdir, except_bind_ok]
    rcases h₁ : read_stat fs (pjoin dir "power1_cap".data) (some "power".data) with e₁ | v₁
    · exact ⟨e₁, by simp [h₁]⟩
    rcases h₂ : read_stat fs (pjoin dir "power1_average".data) (some "power".data) with e₂ | v₂
    · exact ⟨e₂, by simp [h₁, h₂]⟩
    rcases h₃ : read_stat fs (pjoin dir "power1_cap_max".data) (some "power".data) with e₃ | v₃
    · exact ⟨e₃, by simp [h₁, h₂, h₃]⟩
    rcases h₄ : read_stat fs (pjoin dir "power1_cap_default".data) (some "power".data) with e₄ | v₄
    · exact ⟨e₄, by simp [h₁, h₂, h₃, h₄]⟩
    exfalso
    simp only [List.mem_cons, List.not_mem_nil, or_false] at hf
    rcases hf with rfl | rfl | rfl | rfl
    · rw [he] at h₁; cases h₁
    · rw [he] at h₂; cases h₂
    · rw [he] at h₃; cases h₃
    · rw [he] at h₄; cases h₄
  · -- power: a returned snapshot carries all four read results
    intro ps hok
    simp only [get_power_stats, resolve_card_ok _ _ _ hdir, except_bind_ok] at hok
    rcases h₁ : read_stat fs (pjoin dir "power1_cap".data) (some "power".data) with e₁ | v₁ <;>
      rw [h₁] at hok
    · cases hok
    rcases h₂ : read_stat fs (pjoin dir "power1_average".data) (some "power".data) with e₂ | v₂ <;>
      rw [h₂] at hok
    · cases hok
    rcases h₃ : read_stat fs (pjoin dir "power1_cap_max".data) (some "power".data) with e₃ | v₃ <;>
      rw [h₃] at hok
    · cases hok
    rcases h₄ : read_stat fs (pjoin dir "power1_cap_default".data) (some "power".data) with e₄ | v₄ <;>
      rw [h₄] at hok
    · cases hok
    simp only [except_bind_ok] at hok
    cases hok
    exact ⟨rfl, rfl, rfl, rfl⟩
  · -- core: any failing read fails the call
    intro hfail
    obtain ⟨f, hf, e, he⟩ := hfail
    simp only [get_core_stats, hkey, if_true]
    rw [get_clock_core_eq cards fs card dir hdir]
    rcases h₁ : read_int_stat fs (pjoin dir "freq1_input".data) with e₁ | v₁
    · exact ⟨e₁, by simp⟩
    simp only [except_bind_ok]
    rw [get_clock_memory_eq cards fs card dir hdir]
    rcases h₂ : read_int_stat fs (pjoin dir "freq2_input".data) with e₂ | v₂
    · exact ⟨e₂, by simp⟩
    simp only [except_bind_ok, get_voltage, resolve_card_ok _ _ _ hdir]
    rcases h₃ : read_int_stat fs (pjoin dir "in0_input".data) with e₃ | v₃
    · exact ⟨e₃, by simp [h₃]⟩
    simp only [h₃, except_bind_ok, get_gpu_usage, hdir]
    rcases h₄ : read_int_stat fs
        (pjoin (pjoin "/sys/class/drm/".data card) "device/gpu_busy_percent".data) with e₄ | v₄
    · exact ⟨e₄, by simp [h₄]⟩
    exfalso
    simp only [List.mem_cons, List.not_mem_nil, or_false] at hf
    rcases hf with rfl | rfl | rfl | rfl
    · rw [he] at h₁; cases h₁
    · rw [he] at h₂; cases h₂
    · rw [he] at h₃; cases h₃
    · rw [he] at h₄; cases h₄
  · -- temperature: any failing label or value read fails the call
    intro hfail
    simp only [get_temp_stats, resolve_card_ok _ _ _ hdir, except_bind_ok]
    rcases hfail with hlab | ⟨tf, htf, hval⟩
    · obtain ⟨e, he⟩ := temp_files_loop_fail fs dir (fs.tempLabelGlob dir) [] hlab
      exact ⟨e, by simp [he]⟩
    · obtain ⟨e, he⟩ := temp_update_loop_fail fs tf [] hval
      exact ⟨e, by simp [htf, he]⟩

/-- C3 witness fixture: `power1_average` is unreadable, `temp1_label` is
present but its `temp1_input` is unreadable. -/
def fsBroken : Fs where
  hwmonNameGlob := []
  tempLabelGlob := fun d =>
    if d = hw0 then ["/sys/class/drm/card0/device/hwmon/hwmon0/temp1_label".data] else []
  contents := contentsOf
    [("/sys/class/drm/card0/device/hwmon/hwmon0/power1_cap".data, "280000000".data),
     ("/sys/class/drm/card0/device/hwmon/hwmon0/temp1_label".data, "edge".data)]

theorem C3_witness :
    (∃ e, get_power_stats regA fsBroken "card0".data = .error e)
    ∧ (∃ e, get_temp_stats regA fsBroken "card0".data = .error e) :=
  ⟨(C3_atomic_snapshots regA fsBroken "card0".data hw0 (by decide)).1
     ⟨pjoin hw0 "power1_average".data, by decide, .ioError (pjoin hw0 "power1_average".data),
      by decide⟩,
   (C3_atomic_snapshots regA fsBroken "card0".data hw0 (by decide)).2.2.2
     (Or.inr ⟨[("edge".data, pjoin hw0 "temp1_input".data)], by decide,
       ("edge".data, pjoin hw0 "temp1_input".data), by decide,
       .ioError (pjoin hw0 "temp1_input".data), by decide⟩)⟩

theorem hasKey_exists (d : List (Str × α)) (k : Str) (h : hasKey d k = true) :
    ∃ p ∈ d, p.1 = k := by
  induction d with
  | nil => simp [hasKey] at h
  | cons p rest ih =>
    by_cases hp : p.1 = k
    · exact ⟨p, List.mem_cons_self _ _, hp⟩
    · simp only [hasKey, if_neg hp] at h
      obtain ⟨q, hq, hqk⟩ := ih h
      exact ⟨q, List.mem_cons_of_mem _ hq, hqk⟩

/-- `read_int_stat` depends on the filesystem only through the contents of
the file it reads. -/
theorem read_int_stat_congr (fs₁ fs₂ : Fs) (file : Str)
    (h : fs₂.contents file = fs₁.contents file) :
    read_int_stat fs₂ file = read_int_stat fs₁ file := by
  simp only [read_int_stat, read_stat, h]

/-- The sensor-discovery loop depends on the filesystem only through the
contents of the enumerated label files. -/
theorem temp_files_loop_congr (fs₁ fs₂ : Fs) (dir : Str) :
    ∀ (l : List Str) (acc : List (Str × Str)),
      (∀ L ∈ l, fs₂.contents L = fs₁.contents L) →
      temp_files_loop fs₂ dir l acc = temp_files_loop fs₁ dir l acc := by
  intro l
  induction l with
  | nil => intro acc _; rfl
  | cons L rest ih =>
    intro acc h
    have hL := h L (List.mem_cons_self _ _)
    rcases hc : fs₁.contents L with _ | raw
    · rw [hc] at hL
      simp [temp_files_loop, hL, hc]
    · rw [hc] at hL
      simp only [temp_files_loop, hL, hc]
      exact ih _ (fun g hg => h g (List.mem_cons_of_mem _ hg))

theorem temp_files_loop_append (fs : Fs) (dir : Str) :
    ∀ (l₁ l₂ : List Str) (acc : List (Str × Str)),
      temp_files_loop fs dir (l₁ ++ l₂) acc
        = match temp_files_loop fs dir l₁ acc with
          | .ok t => temp_files_loop fs dir l₂ t
          | .error e => .error e := by
  intro l₁
  induction l₁ with
  | nil => intro l₂ acc; rfl
  | cons L rest ih =>
    intro l₂ acc
    rcases hc : fs.contents L with _ | raw
    · simp [temp_files_loop, hc]
    · simp only [List.cons_append, temp_files_loop, hc]
      exact ih l₂ _

/-- Provenance of the discovered sensor map: every entry maps the stripped
contents of some enumerated label file to that file's sibling input file. -/
theorem temp_files_loop_mem (fs : Fs) (dir : Str) :
    ∀ (l : List Str) (acc tf : List (Str × Str)),
      temp_files_loop fs dir l acc = .ok tf →
      ∀ p ∈ tf, p ∈ acc ∨ ∃ L ∈ l, ∃ raw, fs.contents L = some raw
        ∧ p.1 = pyStrip raw ∧ p.2 = tempInputOf dir L := by
  intro l
  induction l with
  | nil =>
    intro acc tf h p hp
    simp [temp_files_loop] at h
    subst h
    exact Or.inl hp
  | cons L rest ih =>
    intro acc tf h p hp
    rcases hc : fs.contents L with _ | raw
    · simp [temp_files_loop, hc] at h
    · simp only [temp_files_loop, hc] at h
      rcases ih _ tf h p hp with hacc | ⟨g, hg, raw', hc', h1, h2⟩
      · rcases mem_dictInsert _ _ _ _ hacc with hnew | hold
        · exact Or.inr ⟨L, List.mem_cons_self _ _, raw, hc,
            by rw [hnew], by rw [hnew]⟩
        · exact Or.inl hold
      · exact Or.inr ⟨g, List.mem_cons_of_mem _ hg, raw', hc', h1, h2⟩

/-- The sensor-readout loop depends on the filesystem only through the
value files it reads. -/
theorem temp_update_loop_congr (fs₁ fs₂ : Fs) :
    ∀ (d : List (Str × Str)) (acc : List (Str × Int)),
      (∀ p ∈ d, read_int_stat fs₂ p.2 = read_int_stat fs₁ p.2) →
      temp_update_loop fs₂ d acc = temp_update_loop fs₁ d acc := by
  intro d
  induction d with
  | nil => intro acc _; rfl
  | cons p rest ih =>
    intro acc h
    obtain ⟨node, file⟩ := p
    have hp := h _ (List.mem_cons_self _ _)
    rcases hr : read_int_stat fs₁ file with e | v
    · rw [hr] at hp
      simp [temp_update_loop, hp, hr]
    · rw [hr] at hp
      simp only [temp_update_loop, hp, hr, except_bind_ok]
      exact ih _ (fun g hg => h g (List.mem_cons_of_mem _ hg))

theorem temp_update_loop_append (fs : Fs) :
    ∀ (d₁ d₂ : List (Str × Str)) (acc : List (Str × Int)),
      temp_update_loop fs (d₁ ++ d₂) acc
        = match temp_update_loop fs d₁ acc with
          | .ok m => temp_update_loop fs d₂ m
          | .error e => .error e := by
  intro d₁
  induction d₁ with
  | nil => intro d₂ acc; rfl
  | cons p rest ih =>
    intro d₂ acc
    obtain ⟨node, file⟩ := p
    rcases hr : read_int_stat fs file with e | v
    · simp [temp_update_loop, hr]
    · simp only [List.cons_append, temp_update_loop, hr, except_bind_ok]
      exact ih d₂ _

/-- C6: `get_temp_stats` re-runs sensor discovery on every call (no caching):
with no labelled sensors it returns the empty mapping (not an error), and a
`tempN_label`/`tempN_input` pair added between two calls appears in the
second call's result — the second snapshot is exactly the first one's
mapping plus `label → reading // 1000` for the new sensor, whose value file
is the sibling `tempN_input` of the new label file. -/
theorem C6_fresh_sensor_discovery (cards : Registry) (fs₁ fs₂ : Fs)
    (card dir : Str) (old : List Str) (Lnew n rawn : Str) (v : Int)
    (m₁ : List (Str × Int))
    (hdir : dlookup cards card = some dir)
    (hold : fs₁.tempLabelGlob dir = old)
    (hnew : fs₂.tempLabelGlob dir = old ++ [Lnew])
    (hagree : ∀ L ∈ old, fs₂.contents L = fs₁.contents L)
    (hagreeIn : ∀ L ∈ old,
      fs₂.contents (tempInputOf dir L) = fs₁.contents (tempInputOf dir L))
    (hfresh : ∀ L ∈ old, (fs₁.contents L).map pyStrip ≠ some n)
    (hLn : fs₂.contents Lnew = some rawn) (hn : pyStrip rawn = n)
    (hv : read_int_stat fs₂ (tempInputOf dir Lnew) = .ok v)
    (hm₁ : get_temp_stats cards fs₁ card = .ok m₁) :
    get_temp_stats cards fs₂ card = .ok (dictInsert m₁ n (Int.fdiv v 1000)) ∧
    dlookup (dictInsert m₁ n (Int.fdiv v 1000)) n = some (Int.fdiv v 1000) ∧
    (∀ card₂ dir₂, dlookup cards card₂ = some dir₂ → fs₁.tempLabelGlob dir₂ = [] →
      get_temp_stats cards fs₁ card₂ = .ok []) := by
  refine ⟨?_, dlookup_dictInsert_self _ _ _, ?_⟩
  · -- unfold the first call
    simp only [get_temp_stats, resolve_card_ok _ _ _ hdir, except_bind_ok, hold] at hm₁
    rcases htf : temp_files_loop fs₁ dir old [] with e | tf
    · rw [htf] at hm₁; cases hm₁
    rw [htf] at hm₁
    simp only [except_bind_ok] at hm₁
    -- discovery under the second filesystem
    have h2f : temp_files_loop fs₂ dir (old ++ [Lnew]) []
        = .ok (dictInsert tf n (tempInputOf dir Lnew)) := by
      rw [temp_files_loop_append, temp_files_loop_congr fs₁ fs₂ dir old [] hagree, htf]
      simp [temp_files_loop, hLn, hn]
    -- the new sensor name is genuinely new
    have hfreshtf : hasKey tf n = false := by
      cases hk : hasKey tf n
      · rfl
      · exfalso
        obtain ⟨p, hp, hpk⟩ := hasKey_exists tf n hk
        rcases temp_files_loop_mem fs₁ dir old [] tf htf p hp with hacc | ⟨L, hL, raw, hcr, h1, _⟩
        · simp at hacc
        · exact hfresh L hL (by rw [hcr, Option.map_some', ← h1, hpk])
    have hins : dictInsert tf n (tempInputOf dir Lnew)
        = tf ++ [(n, tempInputOf dir Lnew)] := dictInsert_of_hasKey_false _ _ _ hfreshtf
    -- the old sensors read identically under the second filesystem
    have hupd2 : temp_update_loop fs₂ tf [] = .ok m₁ := by
      rw [temp_update_loop_congr fs₁ fs₂ tf []]
      · exact hm₁
      · intro p hp
        rcases temp_files_loop_mem fs₁ dir old [] tf htf p hp with hacc | ⟨L, hL, _, _, _, h2⟩
        · simp at hacc
        · rw [h2]
          exact read_int_stat_congr fs₁ fs₂ _ (hagreeIn L hL)
    -- assemble the second call
    simp only [get_temp_stats, resolve_card_ok _ _ _ hdir, except_bind_ok, hnew, h2f, hins]
    rw [temp_update_loop_append, hupd2]
    simp [temp_update_loop, hv]
  · intro card₂ dir₂ hdir₂ hglob₂
    simp [get_temp_stats, resolve_card_ok _ _ _ hdir₂, hglob₂,
      temp_files_loop, temp_update_loop]

/-- C6 witness fixtures: one `edge` sensor first, then a `junction`
label/input pair appears between the calls. -/
def fsT1 : Fs where
  hwmonNameGlob := []
  tempLabelGlob := fun d =>
    if d = hw0 then ["/sys/class/drm/card0/device/hwmon/hwmon0/temp1_label".data] else []
  contents := contentsOf
    [("/sys/class/drm/card0/device/hwmon/hwmon0/temp1_label".data, "edge\n".data),
     ("/sys/class/drm/card0/device/hwmon/hwmon0/temp1_input".data, "45123".data)]

/-- The same directory after a `temp2_label`/`temp2_input` pair appeared. -/
def fsT2 : Fs where
  hwmonNameGlob := []
  tempLabelGlob := fun d =>
    if d = hw0 then
      ["/sys/class/drm/card0/device/hwmon/hwmon0/temp1_label".data,
       "/sys/class/drm/card0/device/hwmon/hwmon0/temp2_label".data]
    else []
  contents := contentsOf
    [("/sys/class/drm/card0/device/hwmon/hwmon0/temp1_label".data, "edge\n".data),
     ("/sys/class/drm/card0/device/hwmon/hwmon0/temp1_input".data, "45123".data),
     ("/sys/class/drm/card0/device/hwmon/hwmon0/temp2_label".data, "junction\n".data),
     ("/sys/class/drm/card0/device/hwmon/hwmon0/temp2_input".data, "51999".data)]

theorem C6_witness :
    get_temp_stats regA fsT1 "card0".data = .ok [("edge".data, 45)]
    ∧ get_temp_stats regA fsT2 "card0".data
        = .ok [("edge".data, 45), ("junction".data, 51)] := by
  have h := C6_fresh_sensor_discovery regA fsT1 fsT2 "card0".data hw0
    ["/sys/class/drm/card0/device/hwmon/hwmon0/temp1_label".data]
    "/sys/class/drm/card0/device/hwmon/hwmon0/temp2_label".data
    "junction".data "junction\n".data 51999 [("edge".data, 45)]
    (by decide) (by decide) (by decide) (by decide) (by decide) (by decide)
    (by decide) (by decide) (by decide) (by decide)
  refine ⟨by decide, ?_⟩
  rw [h.1]
  decide

/-! ## Character-class and replacement lemmas for `format_frequency` -/

theorem natCharsAux_digits :
    ∀ (fuel n : Nat), ∀ c ∈ natCharsAux fuel n, c.isDigit = true := by
  intro fuel
  induction fuel with
  | zero => intro n c hc; simp [natCharsAux] at hc
  | succ fuel ih =>
    intro n c hc
    by_cases hn : n < 10
    · simp only [natCharsAux, if_pos hn, List.mem_singleton] at hc
      subst hc
      revert hn
      revert n
      decide
    · simp only [natCharsAux, if_neg hn, List.mem_append, List.mem_singleton] at hc
      rcases hc with hc | hc
      · exact ih _ c hc
      · subst hc
        have : n % 10 < 10 := Nat.mod_lt _ (by omega)
        revert this
        generalize n % 10 = r
        revert r
        decide

theorem natChars_digits (n : Nat) : ∀ c ∈ natChars n, c.isDigit = true :=
  natCharsAux_digits (n + 1) n

theorem intChars_class (i : Int) : ∀ c ∈ intChars i, c.isDigit = true ∨ c = '-' := by
  intro c hc
  unfold intChars at hc
  by_cases hi : i < 0
  · simp only [if_pos hi, List.mem_cons] at hc
    rcases hc with rfl | hc
    · exact Or.inr rfl
    · exact Or.inl (natChars_digits _ c hc)
  · simp only [if_neg hi] at hc
    exact Or.inl (natChars_digits _ c hc)

theorem mem_stripTrailingZeros (t : Str) (c : Char) (h : c ∈ stripTrailingZeros t) :
    c ∈ t := by
  unfold stripTrailingZeros at h
  have h1 : c ∈ t.reverse.dropWhile (· == '0') := List.mem_reverse.mp h
  have h2 : c ∈ t.reverse := List.Sublist.mem h1 (List.dropWhile_sublist _)
  exact List.mem_reverse.mp h2

theorem mem_stripTrailingDot (t : Str) (c : Char) (h : c ∈ stripTrailingDot t) :
    c ∈ t := by
  unfold stripTrailingDot at h
  split at h
  · exact List.Sublist.mem h (List.dropLast_sublist _)
  · exact h

theorem round_number_class (a b : Int) :
    ∀ c ∈ round_number a b, c.isDigit = true ∨ c = '-' ∨ c = '.' := by
  intro c hc
  unfold round_number at hc
  have hmem := mem_stripTrailingZeros _ _ (mem_stripTrailingDot _ _ hc)
  simp only [List.mem_append, List.mem_cons, List.not_mem_nil, or_false] at hmem
  rcases hmem with (hsign | hnum) | (rfl | hd1 | hd2)
  · -- sign character
    by_cases hneg : rndHalfEven (100 * a) b < 0
    · simp only [if_pos hneg, List.mem_singleton] at hsign
      exact Or.inr (Or.inl hsign)
    · simp only [if_neg hneg] at hsign
      cases hsign
  · exact Or.inl (natChars_digits _ c hnum)
  · exact Or.inr (Or.inr rfl)
  · subst hd1
    have : (rndHalfEven (100 * a) b).natAbs / 10 % 10 < 10 := Nat.mod_lt _ (by omega)
    revert this
    generalize (rndHalfEven (100 * a) b).natAbs / 10 % 10 = r
    revert r
    decide
  · subst hd2
    have : (rndHalfEven (100 * a) b).natAbs % 10 < 10 := Nat.mod_lt _ (by omega)
    revert this
    generalize (rndHalfEven (100 * a) b).natAbs % 10 = r
    revert r
    decide

/-- A pattern whose head occurs nowhere in the string is never replaced. -/
theorem pyReplaceAux_not_mem (hb : Char) (pt rep : Str) :
    ∀ (fuel : Nat) (s : Str), s.length ≤ fuel → hb ∉ s →
      pyReplaceAux (hb :: pt) rep fuel s = s := by
  intro fuel
  induction fuel with
  | zero =>
    intro s _ _
    rfl
  | succ fuel ih =>
    intro s hlen hmem
    cases s with
    | nil => rfl
    | cons c rest =>
      have hc : ¬(hb = c) := fun h => hmem (h ▸ List.mem_cons_self _ _)
      have hpre : (hb :: pt).isPrefixOf (c :: rest) = false := by
        have : (hb :: pt).isPrefixOf (c :: rest) = (hb == c && pt.isPrefixOf rest) := rfl
        rw [this, beq_eq_false_iff_ne.mpr hc, Bool.false_and]
      simp only [pyReplaceAux, hpre, Bool.false_eq_true, if_false]
      rw [ih rest (by simpa using Nat.le_of_succ_le_succ hlen)
        (fun h => hmem (List.mem_cons_of_mem _ h))]

/-- A pattern appended after a string free of its head character is replaced
exactly once, at the end. -/
theorem pyReplaceAux_boundary (hb : Char) (pt rep : Str) :
    ∀ (fuel : Nat) (s : Str), (s ++ hb :: pt).length ≤ fuel → hb ∉ s →
      pyReplaceAux (hb :: pt) rep fuel (s ++ hb :: pt) = s ++ rep := by
  intro fuel
  induction fuel with
  | zero =>
    intro s hlen _
    simp [List.length_append] at hlen
  | succ fuel ih =>
    intro s hlen hmem
    cases s with
    | nil =>
      have hpre : (hb :: pt).isPrefixOf (hb :: pt) = true :=
        List.isPrefixOf_iff_prefix.mpr (List.prefix_refl _)
      have hdrop : (hb :: pt).drop (hb :: pt).length = [] := by
        simp
      have hnil : ∀ f : Nat, pyReplaceAux (hb :: pt) rep f ([] : Str) = [] := by
        intro f
        cases f <;> rfl
      simp only [List.nil_append, pyReplaceAux, hpre, if_true, hdrop, hnil,
        List.append_nil]
    | cons c s' =>
      have hc : ¬(hb = c) := fun h => hmem (h ▸ List.mem_cons_self _ _)
      have hpre : (hb :: pt).isPrefixOf (c :: (s' ++ hb :: pt)) = false := by
        have : (hb :: pt).isPrefixOf (c :: (s' ++ hb :: pt))
            = (hb == c && pt.isPrefixOf (s' ++ hb :: pt)) := rfl
        rw [this, beq_eq_false_iff_ne.mpr hc, Bool.false_and]
      have hlen' : (s' ++ hb :: pt).length ≤ fuel := by
        simp only [List.cons_append, List.length_cons] at hlen
        omega
      simp only [List.cons_append, pyReplaceAux, hpre, Bool.false_eq_true, if_false]
      rw [ih s' hlen' (fun h => hmem (List.mem_cons_of_mem _ h))]

theorem pyReplace_not_mem (s : Str) (hb : Char) (pt rep : Str) (h : hb ∉ s) :
    pyReplace s (hb :: pt) rep = s :=
  pyReplaceAux_not_mem hb pt rep s.length s le_rfl h

theorem pyReplace_boundary (s : Str) (hb : Char) (pt rep : Str) (h : hb ∉ s) :
    pyReplace (s ++ hb :: pt) (hb :: pt) rep = s ++ rep :=
  pyReplaceAux_boundary hb pt rep (s ++ hb :: pt).length s le_rfl h

/-- Digit/sign/dot characters are neither `'B'` nor `'b'`. -/
theorem class_no_B (num : Str)
    (hnum : ∀ c ∈ num, c.isDigit = true ∨ c = '-' ∨ c = '.') :
    'B' ∉ num ∧ 'b' ∉ num := by
  constructor
  · intro hmem
    rcases hnum _ hmem with h | h | h
    · exact absurd h (by decide)
    · exact absurd h (by decide)
    · exact absurd h (by decide)
  · intro hmem
    rcases hnum _ hmem with h | h | h
    · exact absurd h (by decide)
    · exact absurd h (by decide)
    · exact absurd h (by decide)

/-- `.replace("B", "Hz").replace("bytes", "Hz")` on a `format_size` unit
branch output turns the trailing `B` of the symbol into `Hz`. -/
theorem replace_unit_case (num : Str) (k : Char)
    (hnB : 'B' ∉ num) (hnb : 'b' ∉ num) (hkB : k ≠ 'B') (hkb : k ≠ 'b') :
    pyReplace (pyReplace (num ++ ' ' :: [k, 'B']) "B".data "Hz".data) "bytes".data "Hz".data
      = num ++ ' ' :: [k, 'H', 'z'] := by
  have hshape : num ++ ' ' :: [k, 'B'] = (num ++ [' ', k]) ++ 'B' :: [] := by simp
  have hmemB : 'B' ∉ num ++ [' ', k] := by
    simp only [List.mem_append, List.mem_cons, List.not_mem_nil, or_false]
    rintro (h | h | h)
    · exact hnB h
    · exact absurd h (by decide)
    · exact hkB h.symm
  have h1 : pyReplace (num ++ ' ' :: [k, 'B']) "B".data "Hz".data
      = (num ++ [' ', k]) ++ "Hz".data := by
    rw [hshape]
    exact pyReplace_boundary _ 'B' [] _ hmemB
  rw [h1]
  have hmemb : 'b' ∉ (num ++ [' ', k]) ++ "Hz".data := by
    simp only [List.mem_append, List.mem_cons, List.not_mem_nil, or_false]
    rintro ((h | h | h) | (h | h))
    · exact hnb h
    · exact absurd h (by decide)
    · exact hkb h.symm
    · exact absurd h (by decide)
    · exact absurd h (by decide)
  rw [pyReplace_not_mem _ 'b' "ytes".data _ hmemb]
  simp

/-- `.replace("B", "Hz").replace("bytes", "Hz")` on a `format_size` bytes
branch output (plural form) rewrites `bytes` to `Hz`. -/
theorem replace_bytes_case (num : Str) (hnB : 'B' ∉ num) (hnb : 'b' ∉ num) :
    pyReplace (pyReplace (num ++ " bytes".data) "B".data "Hz".data) "bytes".data "Hz".data
      = num ++ " Hz".data := by
  have hmemB : 'B' ∉ num ++ " bytes".data := by
    simp only [List.mem_append]
    rintro (h | h)
    · exact hnB h
    · revert h
      decide
  rw [pyReplace_not_mem _ 'B' [] _ hmemB]
  have hshape : num ++ " bytes".data = (num ++ [' ']) ++ 'b' :: "ytes".data := by simp
  have hmemb : 'b' ∉ num ++ [' '] := by
    simp only [List.mem_append, List.mem_singleton]
    rintro (h | h)
    · exact hnb h
    · exact absurd h (by decide)
  rw [hshape]
  have h2 := pyReplace_boundary (num ++ [' ']) 'b' "ytes".data "Hz".data hmemb
  rw [h2]
  simp

theorem specFrequencyUnit_hz_suffix_loop :
    ∀ (units : List (Int × Str)) (h : Int), (∀ u ∈ units, "Hz".data <:+ u.2) →
      "Hz".data <:+ specFrequencyUnitLoop h units := by
  intro units
  induction units with
  | nil =>
    intro h _
    exact List.suffix_refl _
  | cons u rest ih =>
    intro h hu
    by_cases hc : u.1 ≤ h
    · simp only [specFrequencyUnitLoop, if_pos hc]
      exact hu u (List.mem_cons_self _ _)
    · simp only [specFrequencyUnitLoop, if_neg hc]
      exact ih h (fun g hg => hu g (List.mem_cons_of_mem _ hg))

theorem specFrequencyUnit_hz_suffix (h : Int) : "Hz".data <:+ specFrequencyUnit h :=
  specFrequencyUnit_hz_suffix_loop _ h (by decide)

/-- A unit branch of `format_size`, pushed through the two replacements of
`format_frequency`. -/
theorem format_frequency_unit_branch (h d : Int) (k : Char) (sym symu : Str)
    (hsym : sym = [k, 'B']) (hsymu : symu = [k, 'H', 'z'])
    (hkB : k ≠ 'B') (hkb : k ≠ 'b')
    (hfs : format_size h = round_number h d ++ ' ' :: sym)
    (hsu : specFrequencyUnit h = symu) :
    format_frequency h = round_number h d ++ ' ' :: specFrequencyUnit h := by
  unfold format_frequency
  rw [hfs, hsym, hsu, hsymu]
  have hnm := class_no_B _ (round_number_class h d)
  exact replace_unit_case _ k hnm.1 hnm.2 hkB hkb

/-- The bytes fallback of `format_size` (plural form), pushed through the two
replacements of `format_frequency`. -/
theorem format_frequency_bytes_branch (h : Int)
    (hfs : format_size h = intChars h ++ ' ' :: "bytes".data)
    (hsu : specFrequencyUnit h = "Hz".data) :
    format_frequency h = intChars h ++ ' ' :: specFrequencyUnit h := by
  unfold format_frequency
  rw [hfs, hsu]
  have hclass : ∀ c ∈ intChars h, c.isDigit = true ∨ c = '-' ∨ c = '.' := fun c hc =>
    (intChars_class h c hc).elim Or.inl (fun hh => Or.inr (Or.inl hh))
  have hnm := class_no_B _ hclass
  have hshape : intChars h ++ ' ' :: "bytes".data = intChars h ++ " bytes".data := rfl
  rw [hshape, replace_bytes_case (intChars h) hnm.1 hnm.2]

/-- For every frequency at least 2, `format_frequency` renders a number
followed by the spec's unit for that magnitude. -/
theorem format_frequency_ge_two (h : Int) (h2 : 2 ≤ h) :
    ∃ num : Str, format_frequency h = num ++ ' ' :: specFrequencyUnit h := by
  by_cases h8 : (1000000000000000000000000 : Int) ≤ h
  · exact ⟨_, format_frequency_unit_branch h 1000000000000000000000000 'Y' "YB".data "YHz".data
      (by decide) (by decide) (by decide) (by decide)
      (by simp [format_size, disk_size_units_desc, format_size_loop, h8])
      (by simp [specFrequencyUnit, specFrequencyUnitLoop, h8])⟩
  by_cases h7 : (1000000000000000000000 : Int) ≤ h
  · exact ⟨_, format_frequency_unit_branch h 1000000000000000000000 'Z' "ZB".data "ZHz".data
      (by decide) (by decide) (by decide) (by decide)
      (by simp [format_size, disk_size_units_desc, format_size_loop, h8, h7])
      (by simp [specFrequencyUnit, specFrequencyUnitLoop, h8, h7])⟩
  by_cases h6 : (1000000000000000000 : Int) ≤ h
  · exact ⟨_, format_frequency_unit_branch h 1000000000000000000 'E' "EB".data "EHz".data
      (by decide) (by decide) (by decide) (by decide)
      (by simp [format_size, disk_size_units_desc, format_size_loop, h8, h7, h6])
      (by simp [specFrequencyUnit, specFrequencyUnitLoop, h8, h7, h6])⟩
  by_cases h5 : (1000000000000000 : Int) ≤ h
  · exact ⟨_, format_frequency_unit_branch h 1000000000000000 'P' "PB".data "PHz".data
      (by decide) (by decide) (by decide) (by decide)
      (by simp [format_size, disk_size_units_desc, format_size_loop, h8, h7, h6, h5])
      (by simp [specFrequencyUnit, specFrequencyUnitLoop, h8, h7, h6, h5])⟩
  by_cases h4 : (1000000000000 : Int) ≤ h
  · exact ⟨_, format_frequency_unit_branch h 1000000000000 'T' "TB".data "THz".data
      (by decide) (by decide) (by decide) (by decide)
      (by simp [format_size, disk_size_units_desc, format_size_loop, h8, h7, h6, h5, h4])
      (by simp [specFrequencyUnit, specFrequencyUnitLoop, h8, h7, h6, h5, h4])⟩
  by_cases h3 : (1000000000 : Int) ≤ h
  · exact ⟨_, format_frequency_unit_branch h 1000000000 'G' "GB".data "GHz".data
      (by decide) (by decide) (by decide) (by decide)
      (by simp [format_size, disk_size_units_desc, format_size_loop, h8, h7, h6, h5, h4, h3])
      (by simp [specFrequencyUnit, specFrequencyUnitLoop, h8, h7, h6, h5, h4, h3])⟩
  by_cases hm : (1000000 : Int) ≤ h
  · exact ⟨_, format_frequency_unit_branch h 1000000 'M' "MB".data "MHz".data
      (by decide) (by decide) (by decide) (by decide)
      (by simp [format_size, disk_size_units_desc, format_size_loop, h8, h7, h6, h5, h4, h3, hm])
      (by simp [specFrequencyUnit, specFrequencyUnitLoop, h8, h7, h6, h5, h4, h3, hm])⟩
  by_cases h1 : (1000 : Int) ≤ h
  · exact ⟨_, format_frequency_unit_branch h 1000 'K' "KB".data "KHz".data
      (by decide) (by decide) (by decide) (by decide)
      (by simp [format_size, disk_size_units_desc, format_size_loop, h8, h7, h6, h5, h4, h3, hm, h1])
      (by simp [specFrequencyUnit, specFrequencyUnitLoop, h8, h7, h6, h5, h4, h3, hm, h1])⟩
  · have hne : ¬(h = 1) := by omega
    exact ⟨_, format_frequency_bytes_branch h
      (by simp [format_size, disk_size_units_desc, format_size_loop,
        h8, h7, h6, h5, h4, h3, hm, h1, hne])
      (by simp [specFrequencyUnit, specFrequencyUnitLoop,
        h8, h7, h6, h5, h4, h3, hm, h1])⟩

/-- Negative frequencies do not fail: they fall through to the bytes branch
and render as the raw value followed by `" Hz"`. -/
theorem format_frequency_neg (h : Int) (hneg : h < 0) :
    format_frequency h = intChars h ++ " Hz".data := by
  have h8 : ¬((1000000000000000000000000 : Int) ≤ h) := fun hc => by linarith
  have h7 : ¬((1000000000000000000000 : Int) ≤ h) := fun hc => by linarith
  have h6 : ¬((1000000000000000000 : Int) ≤ h) := fun hc => by linarith
  have h5 : ¬((1000000000000000 : Int) ≤ h) := fun hc => by linarith
  have h4 : ¬((1000000000000 : Int) ≤ h) := fun hc => by linarith
  have h3 : ¬((1000000000 : Int) ≤ h) := fun hc => by linarith
  have hm : ¬((1000000 : Int) ≤ h) := fun hc => by linarith
  have h1 : ¬((1000 : Int) ≤ h) := fun hc => by linarith
  have hne : ¬(h = 1) := by omega
  have hfs : format_size h = intChars h ++ ' ' :: "bytes".data := by
    simp [format_size, disk_size_units_desc, format_size_loop,
      h8, h7, h6, h5, h4, h3, hm, h1, hne]
  have hsu : specFrequencyUnit h = "Hz".data := by
    simp [specFrequencyUnit, specFrequencyUnitLoop, h8, h7, h6, h5, h4, h3, hm, h1]
  rw [format_frequency_bytes_branch h hfs hsu, hsu]

/-- C4 (amended): for every integer frequency `h ≥ 2`, `format_frequency h`
is a number followed by the unit of the largest power of 1000 at or below
`h` and its text ends in `"Hz"`; `format_frequency 0 = "0 Hz"`; but
`format_frequency 1 = "1 byte"` (a bytes-style suffix), and negative inputs
do not fail — they render as the raw value followed by `" Hz"`. -/
theorem C4_format_frequency :
    (∀ h : Int, 2 ≤ h → ∃ num : Str, format_frequency h = num ++ ' ' :: specFrequencyUnit h)
    ∧ (∀ h : Int, 2 ≤ h → "Hz".data <:+ format_frequency h)
    ∧ format_frequency 0 = "0 Hz".data
    ∧ (∀ h : Int, h < 0 → format_frequency h = intChars h ++ " Hz".data) := by
  refine ⟨format_frequency_ge_two, ?_, by decide, format_frequency_neg⟩
  intro h h2
  obtain ⟨num, hn⟩ := format_frequency_ge_two h h2
  rw [hn]
  exact (specFrequencyUnit_hz_suffix h).trans ⟨num ++ [' '], by simp⟩

/-- C4 counterexample: the claim as stated fails at `h = 1`, where the
output is `"1 byte"` (a bytes-style suffix, not ending in `"Hz"`), and at
negative inputs, which do not raise `ValueError` but render normally. -/
theorem C4_counterexample :
    format_frequency 1 = "1 byte".data
    ∧ ¬ ("Hz".data <:+ format_frequency 1)
    ∧ format_frequency (-5) = "-5 Hz".data :=
  ⟨by decide, by decide, by decide⟩

theorem C4_witness :
    (∃ num : Str, format_frequency 1500 = num ++ ' ' :: specFrequencyUnit 1500)
    ∧ "Hz".data <:+ format_frequency 1200000000
    ∧ format_frequency (-5) = intChars (-5) ++ " Hz".data
    ∧ format_frequency 1200000000 = "1.2 GHz".data :=
  ⟨C4_format_frequency.1 1500 (by decide),
   C4_format_frequency.2.1 1200000000 (by decide),
   C4_format_frequency.2.2.2 (-5) (by decide),
   by decide⟩

end AmdgpuStats
